import Mathlib

/-
Shallow embedding of the chart download core of the captain repository
(pkg/helm/download.go). External collaborators (the chart-repo metadata
store, the Kubernetes secret API, the HTTP client transport, the OCI
registry client and the local filesystem) are modelled as an oracle
environment; each function additionally returns the list of external
events it performed, in order, so that claims about "no network call"
and about file removal/creation can be stated.

Go runtime panics (out-of-range indexing, nil-pointer dereference) are
modelled by a dedicated result constructor named crash.
-/

/-- Go strings.Split on a single-character separator, over a char list.
strings.Split always yields at least one element; splitting the empty
string yields one empty element. -/
def goSplitList (sep : Char) : List Char → List (List Char)
  | [] => [[]]
  | c :: rest =>
      let r := goSplitList sep rest
      if c = sep then [] :: r
      else
        match r with
        | [] => [[c]]
        | h :: t => (c :: h) :: t

/-- Go strings.Split with separator "/" (or any single-char separator). -/
def goSplit (s : String) (sep : Char) : List String :=
  (goSplitList sep s.toList).map (fun l => ⟨l⟩)

/-- Go strings.Trim with a single-character cutset: removes the character
from both the beginning and the end of the string. -/
def goTrim (s : String) (c : Char) : String :=
  ⟨((s.toList.dropWhile (· == c)).reverse.dropWhile (· == c)).reverse⟩

def listPre : List Char → List Char → Bool
  | [], _ => true
  | _ :: _, [] => false
  | a :: as, b :: bs => a == b && listPre as bs

/-- Go strings.HasSuffix is modelled below; this models strings.HasPrefix. -/
def goStartsWith (s t : String) : Bool := listPre t.toList s.toList

def goEndsWith (s t : String) : Bool := listPre t.toList.reverse s.toList.reverse

/-- Go strings.ToLower (ASCII-relevant part). -/
def goToLower (s : String) : String := ⟨s.toList.map Char.toLower⟩

/-- Index of the last occurrence of a character (Go strings.LastIndex with
a one-character needle), none when absent (Go returns -1). -/
def goLastIndexChar (c : Char) : List Char → Option Nat
  | [] => none
  | x :: xs =>
      match goLastIndexChar c xs with
      | some i => some (i + 1)
      | none => if x = c then some 0 else none

/-- External events performed by the download core, in order. -/
inductive Event where
  | metaRepoLookup (name ns : String)
  | metaChartLookup (chartID version ns : String)
  | secretRead (primary : Bool) (name ns : String)
  | httpGet (url : String)
  | registryPull (ref : String)
  | fileRemove (path : String)
  | fileWrite (path : String)
  deriving DecidableEq

/-- Whether an event is a network interaction (as opposed to local disk). -/
def Event.isNetwork : Event → Bool
  | .fileRemove _ => false
  | .fileWrite _ => false
  | _ => true

/-- repo.Entry: base URL plus embedded credentials. -/
structure RepoEntry where
  url : String
  username : String
  password : String
  deriving DecidableEq

/-- The relevant part of a repo.ChartVersion returned by chartrepo.GetChart:
the URLs slice and the digest. -/
structure ChartVersion where
  urls : List String
  digest : String
  deriving DecidableEq

/-- Errors from the Kubernetes secret API, split by the class the code
distinguishes with apierrors.IsNotFound. -/
inductive SecretErr where
  | notFound (msg : String)
  | other (msg : String)
  deriving DecidableEq

def SecretErr.msg : SecretErr → String
  | .notFound m => m
  | .other m => m

/-- The data map of a secret, restricted to the two keys the code reads. -/
structure SecretData where
  username : Option String
  password : Option String
  deriving DecidableEq

/-- An HTTP response: status code, full status text, and whether reading
the body (io.Copy) fails. -/
structure HttpResp where
  statusCode : Nat
  status : String
  copyErr : Option String
  deriving DecidableEq

/-- Oracle environment for all external collaborators. -/
structure Env where
  /-- repoCache.Get: a fresh cache hit, or none on a miss. -/
  repoCache : String → Option RepoEntry
  /-- chartrepo.GetChartRepo(name, ns, cfg). -/
  getChartRepo : String → String → Except String RepoEntry
  /-- chartrepo.GetChart(chartResourceName, version, ns, cfg). -/
  getChart : String → String → String → Except String ChartVersion
  /-- os.Stat(ChartsDir) finds the directory. -/
  dirExists : Bool
  /-- os.MkdirAll failure, when the directory had to be created. -/
  mkdirErr : Option String
  /-- os.Stat on a destination file path. -/
  fileExists : String → Bool
  /-- http.NewRequest failure for a URL (malformed URL). -/
  newRequestErr : String → Option String
  /-- httpClient.Do on (url, basic-auth username, basic-auth password):
  transport error, or a response. -/
  httpDo : String → String → String → Except String HttpResp
  /-- ioutil.WriteFile failure at a path. -/
  writeErr : String → Option String
  /-- kubernetes.NewForConfig(d.incfg) failure. -/
  newClientPrimaryErr : Option String
  /-- kubernetes.NewForConfig(d.cfg) failure. -/
  newClientSecondaryErr : Option String
  /-- Secrets(ns).Get(name) under the first (incfg) client. -/
  primarySecret : String → String → Except SecretErr SecretData
  /-- Secrets(ns).Get(name) under the fallback (cfg) client. -/
  secondarySecret : String → String → Except SecretErr SecretData
  /-- registry.NewClient failure. -/
  ociNewClientErr : Option String
  /-- registry.ParseReference: the parsed reference, or a parse error. -/
  parseReference : String → Except String String
  /-- client.PullChart(ref, true, true, username, password). -/
  pullChart : String → String → String → Option String
  /-- client.LoadChart(ref): the loaded chart (opaque), or an error. -/
  loadChart : String → Except String String

/-- Result of a Go function returning (string, error); crash models a
runtime panic. -/
inductive StrRet where
  | ret (val : String) (err : Option String)
  | crash
  deriving DecidableEq

/-- Result of a Go function returning only an error. -/
inductive ErrRet where
  | ret (err : Option String)
  | crash
  deriving DecidableEq

def ChartsDir : String := "/tmp/helm-charts"

/-- getRepoAndChart: stable/nginx -> (stable, nginx); a split that does
not have exactly two fields yields ("", ""). -/
def getRepoAndChart (name : String) : String × String :=
  match goSplit name '/' with
  | [a, b] => (a, b)
  | _ => ("", "")

/-- getRepoInfo: get from cache first, then from k8s. (On a successful
store lookup the Go code also inserts the entry into the cache; that
state update is irrelevant to the claims and is not tracked.) -/
def getRepoInfo (env : Env) (name ns : String) :
    Except String RepoEntry × List Event :=
  match env.repoCache name with
  | some entry => (.ok entry, [])
  | none => (env.getChartRepo name ns, [.metaRepoLookup name ns])

/-- downloadFile: GET a url with optional basic auth and write the body
to filepath. The error of http.NewRequest is never inspected: on a
construction failure req is nil and either req.SetBasicAuth or
httpClient.Do dereferences the nil request, a runtime panic. -/
def downloadFile (env : Env) (url username password filepath : String) :
    ErrRet × List Event :=
  match env.newRequestErr url with
  | some _ => (.crash, [])
  | none =>
      let (u, p) :=
        if username ≠ "" ∧ password ≠ "" then (username, password)
        else ("", "")
      match env.httpDo url u p with
      | .error e => (.ret (some e), [.httpGet url])
      | .ok resp =>
          if resp.statusCode ≠ 200 then
            (.ret (some ("failed to fetch " ++ url ++ " : " ++ resp.status)),
              [.httpGet url])
          else
            match resp.copyErr with
            | some e => (.ret (some e), [.httpGet url])
            | none =>
                match env.writeErr filepath with
                | some e => (.ret (some e), [.httpGet url, .fileWrite filepath])
                | none => (.ret none, [.httpGet url, .fileWrite filepath])

/-- downloadFileFromEntry: join the entry URL and the chart path with a
single "/", unless the chart path is itself an absolute http(s) URL. -/
def downloadFileFromEntry (env : Env) (entry : RepoEntry)
    (chartPath filepath : String) : ErrRet × List Event :=
  let ep :=
    if goEndsWith entry.url "/" then entry.url ++ chartPath
    else entry.url ++ "/" ++ chartPath
  let ep :=
    if goStartsWith chartPath "http://" || goStartsWith chartPath "https://" then
      chartPath
    else ep
  downloadFile env ep entry.username entry.password filepath

/-- downloadChart (pkg/helm/download.go): download a chart named
repo/chart at a version to local disk and return the path. ns is the
Downloader system namespace d.ns. The expression cv.URLs[0] and the
expression strings.Split(path, "/")[1] are unchecked indexings: an empty
URLs slice, or a resolved path with no "/", is a runtime panic. -/
def downloadChart (env : Env) (ns name version : String) :
    StrRet × List Event :=
  let (repoName, chartName) := getRepoAndChart name
  if repoName = "" ∧ chartName = "" then
    (.ret "" (some "cannot parse chart name"), [])
  else
    match (if env.dirExists then none else env.mkdirErr) with
    | some e => (.ret "" (some e), [])
    | none =>
        let (entryRes, ev1) := getRepoInfo env repoName ns
        match entryRes with
        | .error e => (.ret "" (some e), ev1)
        | .ok entry =>
            let chartResourceName := goToLower chartName ++ "." ++ repoName
            let ev2 := ev1 ++ [.metaChartLookup chartResourceName version ns]
            match env.getChart chartResourceName version ns with
            | .error e => (.ret "" (some e), ev2)
            | .ok cv =>
                match cv.urls with
                | [] => (.crash, ev2)
                | path :: _ =>
                    match goSplit path '/' with
                    | _ :: fileName :: _ =>
                        let filePath :=
                          ChartsDir ++ "/" ++ repoName ++ "-" ++ cv.digest
                            ++ "-" ++ fileName
                        if env.fileExists filePath then
                          (.ret filePath none, ev2)
                        else
                          let (dl, ev3) :=
                            downloadFileFromEntry env entry path filePath
                          match dl with
                          | .crash => (.crash, ev2 ++ ev3)
                          | .ret (some e) => (.ret "" (some e), ev2 ++ ev3)
                          | .ret none => (.ret filePath none, ev2 ++ ev3)
                    | _ => (.crash, ev2)

/-- Extraction of username and password from a secret payload, as done at
the end of fetchAuthFromSecret: each present field is trimmed of leading
and trailing newline characters (strings.Trim with cutset "\n"); if
either result is empty the call fails with the formatted error naming
namespace and secret. -/
def extractAuth (s : SecretData) (name ns : String) :
    String × String × Option String :=
  let username := match s.username with | some u => goTrim u '\n' | none => ""
  let password := match s.password with | some p => goTrim p '\n' | none => ""
  if username = "" ∨ password = "" then
    ("", "",
      some ("can not find username or password in the secret "
        ++ ns ++ "/" ++ name))
  else (username, password, none)

/-- fetchAuthFromSecret: read the secret under the first client (built
from d.incfg); on an IsNotFound error retry once under the second client
(built from d.cfg); any other first-attempt error, and any second-attempt
error, is returned as-is. -/
def fetchAuthFromSecret (env : Env) (name ns : String) :
    (String × String × Option String) × List Event :=
  match env.newClientPrimaryErr with
  | some e => (("", "", some e), [])
  | none =>
      match env.primarySecret name ns with
      | .ok s => (extractAuth s name ns, [.secretRead true name ns])
      | .error (.other m) => (("", "", some m), [.secretRead true name ns])
      | .error (.notFound _) =>
          match env.newClientSecondaryErr with
          | some e => (("", "", some e), [.secretRead true name ns])
          | none =>
              match env.secondarySecret name ns with
              | .error e2 =>
                  (("", "", some e2.msg),
                    [.secretRead true name ns, .secretRead false name ns])
              | .ok s =>
                  (extractAuth s name ns,
                    [.secretRead true name ns, .secretRead false name ns])

/-- splitChartNameFromURL: the final path segment of a URL (everything
after the last "/"), the whole URL when it has no "/", and "" for the
empty string. -/
def splitChartNameFromURL (url : String) : String :=
  if url.length = 0 then ""
  else
    match goLastIndexChar '/' url.toList with
    | none => url
    | some idx => ⟨url.toList.drop (idx + 1)⟩

/-- HelmRequestSpec.Source.HTTP. -/
structure HTTPSource where
  url : String
  secretRef : String
  deriving DecidableEq

/-- HelmRequestSpec.Source.OCI. -/
structure OCISource where
  repo : String
  secretRef : String
  deriving DecidableEq

/-- HelmRequestSpec.Source: both pointer fields may be nil. -/
structure Source where
  http : Option HTTPSource
  oci : Option OCISource
  deriving DecidableEq

/-- The parts of a HelmRequest the download core reads: its object name,
its namespace, and the optional source. -/
structure HelmRequest where
  name : String
  ns : String
  source : Option Source
  deriving DecidableEq

/-- downloadChartFromHTTP: resolve a HelmRequest whose chart comes from a
direct HTTP(S) URL. Note the two silent branches: when Spec.Source or
Spec.Source.HTTP is nil the function returns ("", nil) without touching
anything, and when a file already exists at the destination path it is
removed (os.Remove) before the download. -/
def downloadChartFromHTTP (env : Env) (hr : HelmRequest) :
    StrRet × List Event :=
  match hr.source with
  | none => (.ret "" none, [])
  | some src =>
      match src.http with
      | none => (.ret "" none, [])
      | some h =>
          if h.url = "" then
            (.ret "" (some "helmrequest spec source http url not found"), [])
          else
            match (if env.dirExists then none else env.mkdirErr) with
            | some e => (.ret "" (some e), [])
            | none =>
                let chname := splitChartNameFromURL h.url
                let filePath := ChartsDir ++ "/" ++ hr.name ++ "-" ++ chname
                let evRemove :=
                  if env.fileExists filePath then [Event.fileRemove filePath]
                  else []
                let (auth, evAuth) :=
                  if h.secretRef = "" then (("", "", none), [])
                  else fetchAuthFromSecret env h.secretRef hr.ns
                match auth with
                | (_, _, some e) => (.ret "" (some e), evRemove ++ evAuth)
                | (username, password, none) =>
                    if (goStartsWith h.url "http://"
                        || goStartsWith h.url "https://") = true then
                      let (dl, evDl) :=
                        downloadFile env h.url username password filePath
                      match dl with
                      | .crash => (.crash, evRemove ++ evAuth ++ evDl)
                      | .ret (some e) =>
                          (.ret "" (some e), evRemove ++ evAuth ++ evDl)
                      | .ret none =>
                          (.ret filePath none, evRemove ++ evAuth ++ evDl)
                    else
                      (.ret filePath
                        (some "helmrequest spec source http url does not start with HTTP or HTTPS"),
                        evRemove ++ evAuth)

/-- pullOCIChart: resolve a HelmRequest whose chart comes from an OCI
registry. The loaded chart is modelled as the opaque string produced by
the registry client. Credentials are fetched (a secret-store read)
before the reference is parsed. -/
def pullOCIChart (env : Env) (hr : HelmRequest) :
    (Option String × Option String) × List Event :=
  match env.ociNewClientErr with
  | some e => ((none, some e), [])
  | none =>
      match hr.source with
      | none => ((none, some "invalid chart Source, need OCI type"), [])
      | some src =>
          match src.oci with
          | none => ((none, some "invalid chart Source, need OCI type"), [])
          | some o =>
              let (auth, evAuth) :=
                if o.secretRef = "" then (("", "", none), [])
                else fetchAuthFromSecret env o.secretRef hr.ns
              match auth with
              | (_, _, some e) => ((none, some e), evAuth)
              | (username, password, none) =>
                  match env.parseReference o.repo with
                  | .error e => ((none, some e), evAuth)
                  | .ok ref =>
                      match env.pullChart ref username password with
                      | some e =>
                          ((none, some e), evAuth ++ [.registryPull ref])
                      | none =>
                          match env.loadChart ref with
                          | .error e =>
                              ((none, some e), evAuth ++ [.registryPull ref])
                          | .ok cht =>
                              ((some cht, none), evAuth ++ [.registryPull ref])

theorem stringMk_toList (s : String) : (⟨s.toList⟩ : String) = s := by
  cases s
  rfl

theorem goSplitList_ne_nil (sep : Char) (l : List Char) :
    goSplitList sep l ≠ [] := by
  induction l with
  | nil => simp [goSplitList]
  | cons c rest ih =>
      unfold goSplitList
      by_cases h : c = sep
      · simp [h]
      · simp only [h, if_false]
        cases hr : goSplitList sep rest with
        | nil => simp
        | cons a t => simp

theorem goSplitList_not_mem (sep : Char) (l : List Char) (h : sep ∉ l) :
    goSplitList sep l = [l] := by
  induction l with
  | nil => rfl
  | cons c rest ih =>
      have hc : ¬ c = sep := by
        rintro rfl
        exact h (List.mem_cons_self _ _)
      have hrest : sep ∉ rest := fun hm => h (List.mem_cons_of_mem _ hm)
      unfold goSplitList
      simp only [hc, if_false, ih hrest]

theorem goSplit_no_sep (s : String) (sep : Char) (h : sep ∉ s.toList) :
    goSplit s sep = [s] := by
  unfold goSplit
  rw [goSplitList_not_mem sep _ h]
  simp [stringMk_toList]

theorem getRepoInfo_trace (env : Env) (n ns : String) :
    ∀ e ∈ (getRepoInfo env n ns).2, e = .metaRepoLookup n ns := by
  intro e he
  unfold getRepoInfo at he
  split at he <;> simp_all

theorem downloadFile_trace (env : Env) (url username password filepath : String) :
    ∀ e ∈ (downloadFile env url username password filepath).2,
      e = .httpGet url ∨ e = .fileWrite filepath := by
  intro e he
  unfold downloadFile at he
  repeat' split at he
  all_goals simp_all

theorem downloadFileFromEntry_trace (env : Env) (entry : RepoEntry)
    (chartPath filepath : String) :
    ∀ e ∈ (downloadFileFromEntry env entry chartPath filepath).2,
      (∃ u, e = .httpGet u) ∨ e = .fileWrite filepath := by
  intro e he
  unfold downloadFileFromEntry at he
  rcases downloadFile_trace _ _ _ _ _ e he with h | h
  · exact Or.inl ⟨_, h⟩
  · exact Or.inr h

theorem downloadChart_trace (env : Env) (ns name version : String) :
    ∀ e ∈ (downloadChart env ns name version).2,
      (∃ a b, e = .metaRepoLookup a b) ∨
      (∃ a b c, e = .metaChartLookup a b c) ∨
      (∃ u, e = .httpGet u) ∨
      (∃ q, e = .fileWrite q ∧ env.fileExists q = false) := by
  intro e he
  unfold downloadChart at he
  rcases hg : getRepoAndChart name with ⟨r, c⟩
  rw [hg] at he
  by_cases hrc : r = "" ∧ c = ""
  · simp [hrc] at he
  · simp only [if_neg hrc] at he
    rcases hd : (if env.dirExists then none else env.mkdirErr) with _ | me
    · rw [hd] at he
      rcases hri : getRepoInfo env r ns with ⟨res, ev1⟩
      have hev1 : ∀ x ∈ ev1, x = Event.metaRepoLookup r ns := fun x hx =>
        getRepoInfo_trace env r ns x (by rw [hri]; exact hx)
      rw [hri] at he
      dsimp only at he
      rcases res with eM | entry
      · simp only [] at he
        exact Or.inl ⟨r, ns, hev1 e he⟩
      · rcases hgc : env.getChart (goToLower c ++ "." ++ r) version ns with eM2 | cv
        · rw [hgc] at he
          dsimp only at he
          simp only [List.mem_append, List.mem_singleton] at he
          rcases he with h1 | h1
          · exact Or.inl ⟨r, ns, hev1 e h1⟩
          · exact Or.inr (Or.inl ⟨_, _, _, h1⟩)
        · rw [hgc] at he
          dsimp only at he
          rcases hu : cv.urls with _ | ⟨path, tail⟩
          · rw [hu] at he
            dsimp only at he
            simp only [List.mem_append, List.mem_singleton] at he
            rcases he with h1 | h1
            · exact Or.inl ⟨r, ns, hev1 e h1⟩
            · exact Or.inr (Or.inl ⟨_, _, _, h1⟩)
          · rw [hu] at he
            dsimp only at he
            rcases hs : goSplit path '/' with _ | ⟨p0, _ | ⟨fn, t⟩⟩
            all_goals rw [hs] at he
            all_goals dsimp only at he
            · simp only [List.mem_append, List.mem_singleton] at he
              rcases he with h1 | h1
              · exact Or.inl ⟨r, ns, hev1 e h1⟩
              · exact Or.inr (Or.inl ⟨_, _, _, h1⟩)
            · simp only [List.mem_append, List.mem_singleton] at he
              rcases he with h1 | h1
              · exact Or.inl ⟨r, ns, hev1 e h1⟩
              · exact Or.inr (Or.inl ⟨_, _, _, h1⟩)
            · by_cases hex :
                env.fileExists (ChartsDir ++ "/" ++ r ++ "-" ++ cv.digest ++ "-" ++ fn) = true
              · simp only [hex, if_true, List.mem_append, List.mem_singleton] at he
                rcases he with h1 | h1
                · exact Or.inl ⟨r, ns, hev1 e h1⟩
                · exact Or.inr (Or.inl ⟨_, _, _, h1⟩)
              · have hex2 : env.fileExists
                    (ChartsDir ++ "/" ++ r ++ "-" ++ cv.digest ++ "-" ++ fn) = false := by
                  simpa using hex
                have hev3 : ∀ x ∈ (downloadFileFromEntry env entry path
                    (ChartsDir ++ "/" ++ r ++ "-" ++ cv.digest ++ "-" ++ fn)).2,
                    (∃ u, x = Event.httpGet u) ∨
                      x = Event.fileWrite
                        (ChartsDir ++ "/" ++ r ++ "-" ++ cv.digest ++ "-" ++ fn) :=
                  downloadFileFromEntry_trace env entry path _
                simp only [hex, if_false, Bool.false_eq_true] at he
                have hmem : e ∈ ev1 ++
                    (Event.metaChartLookup (goToLower c ++ "." ++ r) version ns ::
                      (downloadFileFromEntry env entry path
                        (ChartsDir ++ "/" ++ r ++ "-" ++ cv.digest ++ "-" ++ fn)).2) := by
                  rcases hdl : (downloadFileFromEntry env entry path
                      (ChartsDir ++ "/" ++ r ++ "-" ++ cv.digest ++ "-" ++ fn)).1 with err | _
                  · rcases err with _ | eE
                    all_goals rw [hdl] at he
                    all_goals simpa using he
                  · rw [hdl] at he
                    simpa using he
                simp only [List.mem_append, List.mem_cons] at hmem
                rcases hmem with h1 | h1 | h1
                · exact Or.inl ⟨r, ns, hev1 e h1⟩
                · exact Or.inr (Or.inl ⟨_, _, _, h1⟩)
                · rcases hev3 e h1 with ⟨u, hu2⟩ | hw
                  · exact Or.inr (Or.inr (Or.inl ⟨u, hu2⟩))
                  · exact Or.inr (Or.inr (Or.inr ⟨_, hw, hex2⟩))
    · rw [hd] at he
      simp at he

theorem fetchAuth_events (env : Env) (name ns : String) :
    ∀ e ∈ (fetchAuthFromSecret env name ns).2,
      e = .secretRead true name ns ∨ e = .secretRead false name ns := by
  intro e he
  unfold fetchAuthFromSecret at he
  repeat' split at he
  all_goals simp_all

theorem extractAuth_ok_nonempty (s : SecretData) (name ns u pw : String)
    (h : extractAuth s name ns = (u, pw, none)) : u ≠ "" ∧ pw ≠ "" := by
  unfold extractAuth at h
  repeat' split at h
  all_goals dsimp only at h
  all_goals split_ifs at h
  all_goals simp_all

theorem downloadChartFromHTTP_trace (env : Env) (hr : HelmRequest) :
    ∀ e ∈ (downloadChartFromHTTP env hr).2,
      (∃ q, e = .fileRemove q ∧ env.fileExists q = true) ∨
      (∃ b a b2, e = .secretRead b a b2) ∨
      (∃ u, e = .httpGet u) ∨
      (∃ q, e = .fileWrite q) := by
  intro e he
  unfold downloadChartFromHTTP at he
  rcases hsrc : hr.source with _ | src
  · rw [hsrc] at he
    simp at he
  · rw [hsrc] at he
    dsimp only at he
    rcases hh : src.http with _ | h
    · rw [hh] at he
      simp at he
    · rw [hh] at he
      dsimp only at he
      by_cases hurl : h.url = ""
      · simp [hurl] at he
      · simp only [if_neg hurl] at he
        rcases hd : (if env.dirExists then none else env.mkdirErr) with _ | me
        · rw [hd] at he
          dsimp only at he
          have hrem : ∀ x ∈ (if env.fileExists
                (ChartsDir ++ "/" ++ hr.name ++ "-" ++ splitChartNameFromURL h.url) = true
              then [Event.fileRemove
                (ChartsDir ++ "/" ++ hr.name ++ "-" ++ splitChartNameFromURL h.url)]
              else ([] : List Event)),
              ∃ q, x = Event.fileRemove q ∧ env.fileExists q = true := by
            intro x hx
            split at hx
            · next hex =>
                simp only [List.mem_singleton] at hx
                exact ⟨_, hx, hex⟩
            · simp at hx
          by_cases hsec : h.secretRef = ""
          · rw [if_pos hsec] at he
            dsimp only at he
            by_cases hsch : (goStartsWith h.url "http://"
                || goStartsWith h.url "https://") = true
            · rw [if_pos hsch] at he
              have hdlt := downloadFile_trace env h.url "" ""
                (ChartsDir ++ "/" ++ hr.name ++ "-" ++ splitChartNameFromURL h.url)
              have hmem : e ∈ (if env.fileExists
                    (ChartsDir ++ "/" ++ hr.name ++ "-" ++ splitChartNameFromURL h.url) = true
                  then [Event.fileRemove
                    (ChartsDir ++ "/" ++ hr.name ++ "-" ++ splitChartNameFromURL h.url)]
                  else []) ++ ([] : List Event) ++ (downloadFile env h.url "" ""
                    (ChartsDir ++ "/" ++ hr.name ++ "-" ++ splitChartNameFromURL h.url)).2 := by
                rcases hdl : (downloadFile env h.url "" ""
                    (ChartsDir ++ "/" ++ hr.name ++ "-" ++ splitChartNameFromURL h.url)).1
                  with err | _
                · rcases err with _ | eE
                  all_goals rw [hdl] at he
                  all_goals simpa using he
                · rw [hdl] at he
                  simpa using he
              simp only [List.mem_append] at hmem
              rcases hmem with (h1 | h1) | h1
              · exact Or.inl (hrem e h1)
              · simp at h1
              · rcases hdlt e h1 with h2 | h2
                · exact Or.inr (Or.inr (Or.inl ⟨_, h2⟩))
                · exact Or.inr (Or.inr (Or.inr ⟨_, h2⟩))
            · rw [if_neg hsch] at he
              simp only [List.mem_append] at he
              rcases he with h1 | h1
              · exact Or.inl (hrem e h1)
              · simp at h1
          · rw [if_neg hsec] at he
            rcases hA : fetchAuthFromSecret env h.secretRef hr.ns with ⟨⟨u0, p0, errA⟩, evA⟩
            have hauth : ∀ x ∈ evA, ∃ b a b2, x = Event.secretRead b a b2 := by
              intro x hx
              rcases fetchAuth_events env h.secretRef hr.ns x (by rw [hA]; exact hx)
                with h1 | h1
              · exact ⟨_, _, _, h1⟩
              · exact ⟨_, _, _, h1⟩
            rw [hA] at he
            dsimp only at he
            rcases errA with _ | eA
            · dsimp only at he
              by_cases hsch : (goStartsWith h.url "http://"
                  || goStartsWith h.url "https://") = true
              · rw [if_pos hsch] at he
                have hdlt := downloadFile_trace env h.url u0 p0
                  (ChartsDir ++ "/" ++ hr.name ++ "-" ++ splitChartNameFromURL h.url)
                have hmem : e ∈ (if env.fileExists
                      (ChartsDir ++ "/" ++ hr.name ++ "-" ++ splitChartNameFromURL h.url) = true
                    then [Event.fileRemove
                      (ChartsDir ++ "/" ++ hr.name ++ "-" ++ splitChartNameFromURL h.url)]
                    else []) ++ evA ++ (downloadFile env h.url u0 p0
                      (ChartsDir ++ "/" ++ hr.name ++ "-" ++ splitChartNameFromURL h.url)).2 := by
                  rcases hdl : (downloadFile env h.url u0 p0
                      (ChartsDir ++ "/" ++ hr.name ++ "-" ++ splitChartNameFromURL h.url)).1
                    with err | _
                  · rcases err with _ | eE
                    all_goals rw [hdl] at he
                    all_goals simpa using he
                  · rw [hdl] at he
                    simpa using he
                simp only [List.mem_append] at hmem
                rcases hmem with (h1 | h1) | h1
                · exact Or.inl (hrem e h1)
                · exact Or.inr (Or.inl (hauth e h1))
                · rcases hdlt e h1 with h2 | h2
                  · exact Or.inr (Or.inr (Or.inl ⟨_, h2⟩))
                  · exact Or.inr (Or.inr (Or.inr ⟨_, h2⟩))
              · rw [if_neg hsch] at he
                simp only [List.mem_append] at he
                rcases he with h1 | h1
                · exact Or.inl (hrem e h1)
                · exact Or.inr (Or.inl (hauth e h1))
            · dsimp only at he
              simp only [List.mem_append] at he
              rcases he with h1 | h1
              · exact Or.inl (hrem e h1)
              · exact Or.inr (Or.inl (hauth e h1))
        · rw [hd] at he
          simp at he

/-- A repository entry used by the concrete test environments. -/
def entryA : RepoEntry := ⟨"https://charts.example.com", "", ""⟩

/-- A concrete oracle environment: the repo cache holds "stable", the
chart lookup resolves to charts/nginx-1.2.3.tgz with digest abc, every
destination file already exists on disk, secrets hold alice/pw, and all
transfers succeed. -/
def envA : Env where
  repoCache := fun n => if n = "stable" then some entryA else none
  getChartRepo := fun _ _ => .error "chartrepo not found"
  getChart := fun _ _ _ => .ok ⟨["charts/nginx-1.2.3.tgz"], "abc"⟩
  dirExists := true
  mkdirErr := none
  fileExists := fun _ => true
  newRequestErr := fun _ => none
  httpDo := fun _ _ _ => .ok ⟨200, "200 OK", none⟩
  writeErr := fun _ => none
  newClientPrimaryErr := none
  newClientSecondaryErr := none
  primarySecret := fun _ _ => .ok ⟨some "alice", some "pw"⟩
  secondarySecret := fun _ _ => .error (.notFound "secret not found")
  ociNewClientErr := none
  parseReference := fun r => .ok r
  pullChart := fun _ _ _ => none
  loadChart := fun r => .ok r

/-- C10: downloadFile discards the error of http.NewRequest: whenever
request construction fails for the URL, the function neither performs any
external call nor returns that (or any) error value — it crashes on the
nil request instead, so the error result never covers malformed-request
inputs. -/
theorem downloadFile_discards_newRequest_error (env : Env)
    (url username password filepath e : String)
    (h : env.newRequestErr url = some e) :
    downloadFile env url username password filepath = (.crash, []) ∧
    ∀ msg : Option String,
      (downloadFile env url username password filepath).1 ≠ .ret msg := by
  have hd : downloadFile env url username password filepath = (.crash, []) := by
    unfold downloadFile
    rw [h]
  exact ⟨hd, fun msg => by rw [hd]; simp⟩

/-- Concrete environment in which http.NewRequest fails for every URL. -/
def envBadURL : Env :=
  { envA with newRequestErr := fun _ => some "missing protocol scheme" }

/-- Witness for C10 at a concrete malformed URL. -/
theorem downloadFile_discards_newRequest_error_witness :
    downloadFile envBadURL ":badurl" "u" "pw" "/tmp/helm-charts/f" = (.crash, []) :=
  (downloadFile_discards_newRequest_error envBadURL ":badurl" "u" "pw"
    "/tmp/helm-charts/f" "missing protocol scheme" rfl).1

/-- C9: the expression strings.Split(path, "/")[1] in downloadChart is an
unchecked indexing: whenever the chart path resolved by the metadata
store has no "/" in it, downloadChart crashes with an out-of-range panic
instead of returning an error. -/
theorem downloadChart_noSlash_crashes (env : Env)
    (ns name version repoName chartName : String)
    (entry : RepoEntry) (cv : ChartVersion) (path : String) (rest : List String)
    (hparse : getRepoAndChart name = (repoName, chartName))
    (hne : ¬(repoName = "" ∧ chartName = ""))
    (hdir : env.dirExists = true)
    (hcache : env.repoCache repoName = some entry)
    (hchart : env.getChart (goToLower chartName ++ "." ++ repoName) version ns = .ok cv)
    (hurls : cv.urls = path :: rest)
    (hslash : '/' ∉ path.toList) :
    (downloadChart env ns name version).1 = .crash := by
  have hsplit : goSplit path '/' = [path] := goSplit_no_sep path '/' hslash
  have hri : getRepoInfo env repoName ns = (.ok entry, []) := by
    unfold getRepoInfo
    rw [hcache]
  have hdm : (if env.dirExists then none else env.mkdirErr) = (none : Option String) := by
    rw [hdir]
    simp
  unfold downloadChart
  rw [hparse]
  dsimp only
  rw [if_neg hne, hdm]
  dsimp only
  rw [hri]
  dsimp only
  rw [hchart]
  dsimp only
  rw [hurls]
  dsimp only
  rw [hsplit]

/-- The chart version returned by the metadata store in the C9 witness
environment: its resolved path has no "/". -/
def cvC9 : ChartVersion := ⟨["nochart.tgz"], "d1"⟩

/-- Witness environment for C9. -/
def envC9 : Env := { envA with getChart := fun _ _ _ => .ok cvC9 }

/-- Witness for C9 at a concrete resolved path without "/". -/
theorem downloadChart_noSlash_crashes_witness :
    (downloadChart envC9 "captain" "stable/nginx" "1.2.3").1 = .crash :=
  downloadChart_noSlash_crashes envC9 "captain" "stable/nginx" "1.2.3"
    "stable" "nginx" entryA cvC9 "nochart.tgz" []
    (by decide) (by decide) rfl rfl rfl rfl (by decide)

/-- C4: credential resolution reads the secret under the first scope; it
retries under the second scope exactly when the first attempt reports
not-found; any other first-attempt error is returned at once with no
second read; a second-attempt failure is returned as-is. -/
theorem fetchAuthFromSecret_fallback (env : Env) (name ns : String)
    (hc1 : env.newClientPrimaryErr = none)
    (hc2 : env.newClientSecondaryErr = none) :
    (∀ s, env.primarySecret name ns = .ok s →
        fetchAuthFromSecret env name ns
          = (extractAuth s name ns, [.secretRead true name ns]))
  ∧ (∀ m, env.primarySecret name ns = .error (.other m) →
        fetchAuthFromSecret env name ns
          = (("", "", some m), [.secretRead true name ns]))
  ∧ (∀ m, env.primarySecret name ns = .error (.notFound m) →
        (∀ s, env.secondarySecret name ns = .ok s →
            fetchAuthFromSecret env name ns
              = (extractAuth s name ns,
                  [.secretRead true name ns, .secretRead false name ns]))
        ∧ (∀ e2, env.secondarySecret name ns = .error e2 →
            fetchAuthFromSecret env name ns
              = (("", "", some e2.msg),
                  [.secretRead true name ns, .secretRead false name ns]))) := by
  unfold fetchAuthFromSecret
  rw [hc1]
  refine ⟨?_, ?_, ?_⟩
  · intro s hs
    rw [hs]
  · intro m hm
    rw [hm]
  · intro m hm
    rw [hm]
    dsimp only
    rw [hc2]
    exact ⟨fun s hs => by rw [hs], fun e2 he2 => by rw [he2]⟩

/-- Witness for C4: with the secret present in the first scope, the pair
is returned after a single read of the first scope. -/
theorem fetchAuthFromSecret_fallback_witness :
    fetchAuthFromSecret envA "mysecret" "ns1"
      = (("alice", "pw", none), [.secretRead true "mysecret" "ns1"]) := by
  have h := (fetchAuthFromSecret_fallback envA "mysecret" "ns1" rfl rfl).1
    ⟨some "alice", some "pw"⟩ rfl
  rw [h]
  decide

/-- A HelmRequest with a direct HTTP source and no secret reference. -/
def hrHTTP : HelmRequest :=
  ⟨"myapp", "default",
    some ⟨some ⟨"https://files.example.com/pkg/app-2.0.tgz", ""⟩, none⟩⟩

/-- C1 counterexample: with every destination file already on disk, the
repository path still performs the metadata-store chart lookup (a
network call) before checking the file, and the HTTP-source path removes
the existing file and fetches it over the network again, so warm-cache
resolution is not free of network calls on either path. -/
theorem warmCache_counterexample :
    (envA.fileExists "/tmp/helm-charts/stable-abc-nginx-1.2.3.tgz" = true ∧
      downloadChart envA "captain" "stable/nginx" "1.2.3"
        = (.ret "/tmp/helm-charts/stable-abc-nginx-1.2.3.tgz" none,
            [.metaChartLookup "nginx.stable" "1.2.3" "captain"]) ∧
      Event.isNetwork (.metaChartLookup "nginx.stable" "1.2.3" "captain") = true) ∧
    (envA.fileExists "/tmp/helm-charts/myapp-app-2.0.tgz" = true ∧
      downloadChartFromHTTP envA hrHTTP
        = (.ret "/tmp/helm-charts/myapp-app-2.0.tgz" none,
            [.fileRemove "/tmp/helm-charts/myapp-app-2.0.tgz",
             .httpGet "https://files.example.com/pkg/app-2.0.tgz",
             .fileWrite "/tmp/helm-charts/myapp-app-2.0.tgz"]) ∧
      Event.isNetwork (.httpGet "https://files.example.com/pkg/app-2.0.tgz") = true) := by
  decide

theorem downloadFile_httpGet_mem (env : Env) (url u p fp : String)
    (h : env.newRequestErr url = none) :
    Event.httpGet url ∈ (downloadFile env url u p fp).2 := by
  unfold downloadFile
  rw [h]
  repeat' split
  all_goals simp_all

/-- C1 amended: when the computed destination file already exists, the
repository path returns that path without any HTTP fetch — but only
after the metadata-store chart lookup, and, on a repo-cache miss, the
repository lookup, have run; on the HTTP-source path the existing file
is removed and the chart is downloaded again over the network, whether
or not a secret reference is attached. -/
theorem warmCache_amended :
    (∀ (env : Env) (ns name version repoName chartName : String)
        (entry : RepoEntry) (ev1 : List Event) (cv : ChartVersion)
        (path p0 fileName : String) (t rest : List String),
        getRepoAndChart name = (repoName, chartName) →
        ¬(repoName = "" ∧ chartName = "") →
        env.dirExists = true →
        getRepoInfo env repoName ns = (.ok entry, ev1) →
        env.getChart (goToLower chartName ++ "." ++ repoName) version ns = .ok cv →
        cv.urls = path :: rest →
        goSplit path '/' = p0 :: fileName :: t →
        env.fileExists (ChartsDir ++ "/" ++ repoName ++ "-" ++ cv.digest
          ++ "-" ++ fileName) = true →
        downloadChart env ns name version
          = (.ret (ChartsDir ++ "/" ++ repoName ++ "-" ++ cv.digest
                ++ "-" ++ fileName) none,
              ev1 ++ [.metaChartLookup (goToLower chartName ++ "." ++ repoName)
                version ns])
          ∧ ∀ u, Event.httpGet u ∉ (downloadChart env ns name version).2)
  ∧ (∀ (env : Env) (n ns : String),
        env.repoCache n = none →
        getRepoInfo env n ns = (env.getChartRepo n ns, [.metaRepoLookup n ns]))
  ∧ (∀ (env : Env) (hr : HelmRequest) (src : Source) (h : HTTPSource),
        hr.source = some src →
        src.http = some h →
        h.url ≠ "" →
        env.dirExists = true →
        (goStartsWith h.url "http://" || goStartsWith h.url "https://") = true →
        env.newRequestErr h.url = none →
        env.fileExists (ChartsDir ++ "/" ++ hr.name ++ "-"
          ++ splitChartNameFromURL h.url) = true →
        (if h.secretRef = "" then (("", "", none), ([] : List Event))
          else fetchAuthFromSecret env h.secretRef hr.ns).1.2.2 = none →
        Event.fileRemove (ChartsDir ++ "/" ++ hr.name ++ "-"
            ++ splitChartNameFromURL h.url) ∈ (downloadChartFromHTTP env hr).2
          ∧ Event.httpGet h.url ∈ (downloadChartFromHTTP env hr).2) := by
  refine ⟨?_, ?_, ?_⟩
  · intro env ns name version repoName chartName entry ev1 cv path p0 fileName t rest
      hparse hne hdir hgri hchart hurls hsplit hex
    have hdm : (if env.dirExists then none else env.mkdirErr)
        = (none : Option String) := by
      rw [hdir]
      simp
    have hmain : downloadChart env ns name version
        = (.ret (ChartsDir ++ "/" ++ repoName ++ "-" ++ cv.digest
              ++ "-" ++ fileName) none,
            ev1 ++ [.metaChartLookup (goToLower chartName ++ "." ++ repoName)
              version ns]) := by
      unfold downloadChart
      rw [hparse]
      dsimp only
      rw [if_neg hne, hdm]
      dsimp only
      rw [hgri]
      dsimp only
      rw [hchart]
      dsimp only
      rw [hurls]
      dsimp only
      rw [hsplit]
      dsimp only
      rw [if_pos hex]
    refine ⟨hmain, ?_⟩
    rw [hmain]
    intro u hu
    simp only [List.mem_append, List.mem_singleton] at hu
    rcases hu with hu | hu
    · have h2 := getRepoInfo_trace env repoName ns (Event.httpGet u)
        (by rw [hgri]; exact hu)
      simp at h2
    · simp at hu
  · intro env n ns hmiss
    unfold getRepoInfo
    rw [hmiss]
  · intro env hr src h hsrc hh hurl hdir hsch hreq hex hauth
    have hdm : (if env.dirExists then none else env.mkdirErr)
        = (none : Option String) := by
      rw [hdir]
      simp
    rcases hA : (if h.secretRef = "" then (("", "", none), ([] : List Event))
        else fetchAuthFromSecret env h.secretRef hr.ns) with ⟨⟨u0, p0, errA⟩, evA⟩
    rw [hA] at hauth
    dsimp only at hauth
    subst hauth
    have htrace : (downloadChartFromHTTP env hr).2
        = Event.fileRemove (ChartsDir ++ "/" ++ hr.name ++ "-"
            ++ splitChartNameFromURL h.url)
          :: (evA ++ (downloadFile env h.url u0 p0
              (ChartsDir ++ "/" ++ hr.name ++ "-" ++ splitChartNameFromURL h.url)).2) := by
      unfold downloadChartFromHTTP
      rw [hsrc]
      dsimp only
      rw [hh]
      dsimp only
      rw [if_neg hurl, hdm]
      dsimp only
      rw [hA]
      dsimp only
      rw [if_pos hex, if_pos hsch]
      rcases hdl : (downloadFile env h.url u0 p0
          (ChartsDir ++ "/" ++ hr.name ++ "-" ++ splitChartNameFromURL h.url)).1
        with err | _
      · rcases err with _ | eE
        all_goals simp
      · simp
    rw [htrace]
    constructor
    · exact List.mem_cons_self _ _
    · exact List.mem_cons_of_mem _
        (List.mem_append.mpr (Or.inr
          (downloadFile_httpGet_mem env h.url u0 p0 _ hreq)))

/-- Environment like envA except that the metadata store resolves every
repository name, so that repo-cache misses succeed via the store. -/
def envMiss : Env := { envA with getChartRepo := fun _ _ => .ok entryA }

/-- A HelmRequest with a direct HTTP source and a secret reference. -/
def hrHTTPsec : HelmRequest :=
  ⟨"myapp2", "default",
    some ⟨some ⟨"https://files.example.com/pkg/app-2.0.tgz", "cred"⟩, none⟩⟩

/-- Witness for the amended C1: the repository half at a repo-cache miss
("extra" is not cached, so the repository lookup runs before the
warm-cache return), and the HTTP half at a secret-bearing request. -/
theorem warmCache_amended_witness :
    downloadChart envMiss "captain" "extra/nginx" "1.2.3"
      = (.ret "/tmp/helm-charts/extra-abc-nginx-1.2.3.tgz" none,
          [.metaRepoLookup "extra" "captain",
           .metaChartLookup "nginx.extra" "1.2.3" "captain"]) ∧
    Event.fileRemove "/tmp/helm-charts/myapp2-app-2.0.tgz"
      ∈ (downloadChartFromHTTP envA hrHTTPsec).2 ∧
    Event.httpGet "https://files.example.com/pkg/app-2.0.tgz"
      ∈ (downloadChartFromHTTP envA hrHTTPsec).2 := by
  refine ⟨?_, ?_, ?_⟩
  · exact (warmCache_amended.1 envMiss "captain" "extra/nginx" "1.2.3" "extra" "nginx"
      entryA [.metaRepoLookup "extra" "captain"] ⟨["charts/nginx-1.2.3.tgz"], "abc"⟩
      "charts/nginx-1.2.3.tgz" "charts" "nginx-1.2.3.tgz" [] []
      (by decide) (by decide) rfl
      (warmCache_amended.2.1 envMiss "extra" "captain" rfl)
      rfl rfl (by decide) rfl).1
  · exact (warmCache_amended.2.2 envA hrHTTPsec
      ⟨some ⟨"https://files.example.com/pkg/app-2.0.tgz", "cred"⟩, none⟩
      ⟨"https://files.example.com/pkg/app-2.0.tgz", "cred"⟩
      rfl rfl (by decide) rfl (by decide) rfl rfl (by decide)).1
  · exact (warmCache_amended.2.2 envA hrHTTPsec
      ⟨some ⟨"https://files.example.com/pkg/app-2.0.tgz", "cred"⟩, none⟩
      ⟨"https://files.example.com/pkg/app-2.0.tgz", "cred"⟩
      rfl rfl (by decide) rfl (by decide) rfl rfl (by decide)).2

/-- C2 counterexample: the reference "repo/" has an empty chart segment,
yet parsing yields ("repo", "") rather than failing, and downloadChart
proceeds past the parse check to the metadata lookup (here a repo-cache
miss and store error) instead of returning the parse error with no
lookup. -/
theorem parse_emptySegment_counterexample :
    getRepoAndChart "repo/" = ("repo", "") ∧
    downloadChart envA "captain" "repo/" "1.0"
      = (.ret "" (some "chartrepo not found"),
          [.metaRepoLookup "repo" "captain"]) ∧
    downloadChart envA "captain" "repo/" "1.0"
      ≠ (.ret "" (some "cannot parse chart name"), []) := by
  decide

/-- C2 amended: the parse step of downloadChart rejects a compound
reference — returning the error "cannot parse chart name" with no lookup
performed — precisely when the string does not split on "/" into exactly
two fields, or splits into two empty fields (the string "/"); a
reference with exactly one empty field, such as "repo/" or "/chart", is
accepted and resolution proceeds to the lookups. -/
theorem parse_amended (name : String) :
    (getRepoAndChart name = ("", "") ↔
      (match goSplit name '/' with
       | [a, b] => a = "" ∧ b = ""
       | _ => True))
  ∧ (∀ (env : Env) (ns version : String),
      getRepoAndChart name = ("", "") →
      downloadChart env ns name version
        = (.ret "" (some "cannot parse chart name"), [])) := by
  constructor
  · rcases h : goSplit name '/' with _ | ⟨a, _ | ⟨b, _ | ⟨c, t⟩⟩⟩ <;>
      simp [getRepoAndChart, h]
  · intro env ns version h
    unfold downloadChart
    rw [h]
    dsimp only
    simp

/-- Witness for the amended C2 at a reference with no "/" at all. -/
theorem parse_amended_witness :
    downloadChart envA "captain" "stablenginx" "1.0"
      = (.ret "" (some "cannot parse chart name"), []) :=
  (parse_amended "stablenginx").2 envA "captain" "1.0" (by decide)

/-- Environment whose HTTP responses carry status 201 Created. -/
def envC3 : Env := { envA with httpDo := fun _ _ _ => .ok ⟨201, "201 Created", none⟩ }

/-- C3 counterexample: 201 is a 2xx status, yet downloadFile treats it as
a failure, returning the formatted fetch error instead of writing the
body to the destination. -/
theorem status2xx_counterexample :
    (200 ≤ 201 ∧ 201 < 300) ∧
    downloadFile envC3 "https://files.example.com/a.tgz" "" "" "/tmp/helm-charts/f"
      = (.ret (some "failed to fetch https://files.example.com/a.tgz : 201 Created"),
          [.httpGet "https://files.example.com/a.tgz"]) := by
  decide

/-- C3 amended: a fetch succeeds (and the body is written to the
destination) only for status exactly 200; every other status code —
including the other 2xx codes — yields the error naming the requested
URL and the response status text. -/
theorem status_amended (env : Env) (url username password filepath u p : String)
    (resp : HttpResp)
    (hreq : env.newRequestErr url = none)
    (hcred : (if username ≠ "" ∧ password ≠ "" then (username, password)
        else ("", "")) = (u, p))
    (hdo : env.httpDo url u p = .ok resp) :
    (resp.statusCode ≠ 200 →
      downloadFile env url username password filepath
        = (.ret (some ("failed to fetch " ++ url ++ " : " ++ resp.status)),
            [.httpGet url]))
  ∧ (resp.statusCode = 200 → resp.copyErr = none → env.writeErr filepath = none →
      downloadFile env url username password filepath
        = (.ret none, [.httpGet url, .fileWrite filepath])) := by
  unfold downloadFile
  rw [hreq]
  dsimp only
  rw [hcred]
  dsimp only
  rw [hdo]
  dsimp only
  constructor
  · intro hst
    rw [if_pos hst]
  · intro hst hcopy hwrite
    rw [if_neg (by simp [hst]), hcopy, hwrite]

/-- Witness for the amended C3: a 404 response produces the formatted
error, and a 200 response writes the file. -/
theorem status_amended_witness :
    downloadFile envA "https://files.example.com/a.tgz" "" "" "/tmp/helm-charts/f"
      = (.ret none, [.httpGet "https://files.example.com/a.tgz",
          .fileWrite "/tmp/helm-charts/f"]) :=
  (status_amended envA "https://files.example.com/a.tgz" "" "" "/tmp/helm-charts/f"
    "" "" ⟨200, "200 OK", none⟩ rfl (by decide) rfl).2 rfl rfl rfl

/-- Environment whose secret username value has a leading newline. -/
def envC5 : Env :=
  { envA with primarySecret := fun _ _ => .ok ⟨some "\nalice", some "pw"⟩ }

/-- Reference definition following the claim's wording: remove trailing
newline characters only. -/
def trimTrailingNewlines (s : String) : String :=
  ⟨(s.toList.reverse.dropWhile (· == '\n')).reverse⟩

/-- C5 counterexample: for a secret username value with a leading
newline the code returns "alice" — strings.Trim removes the leading
newline as well — whereas trimming trailing newline characters only
would keep the value unchanged. -/
theorem trim_counterexample :
    (fetchAuthFromSecret envC5 "mysecret" "ns1").1 = ("alice", "pw", none) ∧
    trimTrailingNewlines "\nalice" = "\nalice" ∧
    ("alice" : String) ≠ "\nalice" := by
  decide

/-- C5 amended: the username and password fields are trimmed of leading
and trailing newline characters; if either field is absent or trims to
empty, the call fails with the error naming the namespace and the
secret; a successful result never carries an empty component. -/
theorem auth_extraction_amended :
    (∀ (env : Env) (name ns : String) (s : SecretData),
        env.newClientPrimaryErr = none →
        env.primarySecret name ns = .ok s →
        (fetchAuthFromSecret env name ns).1 = extractAuth s name ns)
  ∧ (∀ (s : SecretData) (name ns u pw : String),
        s.username = some u → s.password = some pw →
        goTrim u '\n' ≠ "" → goTrim pw '\n' ≠ "" →
        extractAuth s name ns = (goTrim u '\n', goTrim pw '\n', none))
  ∧ (∀ (s : SecretData) (name ns : String),
        (match s.username with | some x => goTrim x '\n' | none => "") = "" ∨
        (match s.password with | some x => goTrim x '\n' | none => "") = "" →
        extractAuth s name ns
          = ("", "", some ("can not find username or password in the secret "
              ++ ns ++ "/" ++ name)))
  ∧ (∀ (env : Env) (name ns u pw : String),
        (fetchAuthFromSecret env name ns).1 = (u, pw, none) →
        u ≠ "" ∧ pw ≠ "") := by
  refine ⟨?_, ?_, ?_, ?_⟩
  · intro env name ns s h1 h2
    unfold fetchAuthFromSecret
    rw [h1]
    dsimp only
    rw [h2]
  · intro s name ns u pw hu hpw hnu hnpw
    unfold extractAuth
    rw [hu, hpw]
    dsimp only
    rw [if_neg (by simp [hnu, hnpw])]
  · intro s name ns hor
    unfold extractAuth
    dsimp only
    rw [if_pos hor]
  · intro env name ns u pw h
    unfold fetchAuthFromSecret at h
    repeat' split at h
    all_goals dsimp only at h
    all_goals first
      | exact extractAuth_ok_nonempty _ name ns u pw h
      | simp_all

/-- Witness for the amended C5: a username with leading and trailing
newlines and a clean password yield the fully trimmed pair. -/
theorem auth_extraction_amended_witness :
    extractAuth ⟨some "\nalice\n", some "pw"⟩ "mysecret" "ns1"
      = ("alice", "pw", none) := by
  have h := auth_extraction_amended.2.1 ⟨some "\nalice\n", some "pw"⟩
    "mysecret" "ns1" "\nalice\n" "pw" rfl rfl (by decide) (by decide)
  rw [h]
  decide

/-- C6 counterexample: a structured request whose source is nil, and one
whose HTTP field is nil, are both resolved by the HTTP dispatch path
with an empty local path and a nil error — a silent success — instead of
a parse failure. -/
theorem dispatch_silent_counterexample :
    downloadChartFromHTTP envA ⟨"req6", "nsA", none⟩ = (.ret "" none, []) ∧
    downloadChartFromHTTP envA ⟨"req6b", "nsA", some ⟨none, none⟩⟩
      = (.ret "" none, []) := by
  decide

/-- C6 amended: the OCI dispatch path rejects a request with no
populated OCI source with the error "invalid chart Source, need OCI
type", but the HTTP dispatch path returns an empty path and a nil error
— silently — when the source or its HTTP field is nil. -/
theorem dispatch_source_amended :
    (∀ (env : Env) (hr : HelmRequest), env.ociNewClientErr = none →
        hr.source = none →
        pullOCIChart env hr
          = ((none, some "invalid chart Source, need OCI type"), []))
  ∧ (∀ (env : Env) (hr : HelmRequest) (src : Source), env.ociNewClientErr = none →
        hr.source = some src → src.oci = none →
        pullOCIChart env hr
          = ((none, some "invalid chart Source, need OCI type"), []))
  ∧ (∀ (env : Env) (hr : HelmRequest), hr.source = none →
        downloadChartFromHTTP env hr = (.ret "" none, []))
  ∧ (∀ (env : Env) (hr : HelmRequest) (src : Source),
        hr.source = some src → src.http = none →
        downloadChartFromHTTP env hr = (.ret "" none, [])) := by
  refine ⟨?_, ?_, ?_, ?_⟩
  · intro env hr hc hs
    unfold pullOCIChart
    rw [hc]
    dsimp only
    rw [hs]
  · intro env hr src hc hs ho
    unfold pullOCIChart
    rw [hc]
    dsimp only
    rw [hs]
    dsimp only
    rw [ho]
  · intro env hr hs
    unfold downloadChartFromHTTP
    rw [hs]
  · intro env hr src hs hh
    unfold downloadChartFromHTTP
    rw [hs]
    dsimp only
    rw [hh]

/-- Witness for the amended C6 at a concrete sourceless request. -/
theorem dispatch_source_amended_witness :
    pullOCIChart envA ⟨"req6w", "nsA", none⟩
      = ((none, some "invalid chart Source, need OCI type"), []) :=
  dispatch_source_amended.1 envA ⟨"req6w", "nsA", none⟩ rfl rfl

/-- Environment in which every OCI reference fails to parse. -/
def envC7 : Env :=
  { envA with parseReference := fun _ => .error "could not parse reference" }

/-- An OCI-source request with an unparsable reference and a secret
reference. -/
def hrOCI : HelmRequest :=
  ⟨"req7", "nsB", some ⟨none, some ⟨":::badref", "regcred"⟩⟩⟩

/-- C7 counterexample: an OCI request with an unparsable reference and a
secret reference performs a secret-store read — a network call — before
the reference is parsed, so the parse failure is not free of network
calls. -/
theorem ociParse_counterexample :
    pullOCIChart envC7 hrOCI
      = ((none, some "could not parse reference"),
          [.secretRead true "regcred" "nsB"]) ∧
    Event.isNetwork (.secretRead true "regcred" "nsB") = true := by
  decide

/-- C7 amended: an unparsable OCI reference makes pullOCIChart fail with
the parse error and no registry interaction ever happens; however, when
a secret reference is present, the secret-store read is performed
before parsing, so the only events of such a failed pull are secret
reads. -/
theorem ociParse_amended (env : Env) (hr : HelmRequest) (src : Source)
    (o : OCISource) (e : String)
    (hsrc : hr.source = some src) (hoci : src.oci = some o)
    (hcl : env.ociNewClientErr = none)
    (hauth : (if o.secretRef = "" then (("", "", none), ([] : List Event))
        else fetchAuthFromSecret env o.secretRef hr.ns).1.2.2 = none)
    (hp : env.parseReference o.repo = .error e) :
    pullOCIChart env hr
      = ((none, some e),
          (if o.secretRef = "" then (("", "", none), ([] : List Event))
           else fetchAuthFromSecret env o.secretRef hr.ns).2)
  ∧ (∀ r, Event.registryPull r ∉ (pullOCIChart env hr).2)
  ∧ (∀ ev ∈ (pullOCIChart env hr).2,
      ∃ b, ev = Event.secretRead b o.secretRef hr.ns) := by
  rcases hA : (if o.secretRef = "" then (("", "", none), ([] : List Event))
      else fetchAuthFromSecret env o.secretRef hr.ns) with ⟨⟨u0, p0, errA⟩, evA⟩
  rw [hA] at hauth
  dsimp only at hauth
  subst hauth
  have hevA : ∀ x ∈ evA, ∃ b, x = Event.secretRead b o.secretRef hr.ns := by
    intro x hx
    by_cases hsec : o.secretRef = ""
    · rw [if_pos hsec] at hA
      cases hA
      simp at hx
    · rw [if_neg hsec] at hA
      rcases fetchAuth_events env o.secretRef hr.ns x (by rw [hA]; exact hx)
        with h1 | h1
      · exact ⟨_, h1⟩
      · exact ⟨_, h1⟩
  have hmain : pullOCIChart env hr = ((none, some e), evA) := by
    unfold pullOCIChart
    rw [hcl]
    dsimp only
    rw [hsrc]
    dsimp only
    rw [hoci]
    dsimp only
    rw [hA]
    dsimp only
    rw [hp]
  refine ⟨hmain, ?_, ?_⟩
  · intro r hr2
    rw [hmain] at hr2
    rcases hevA _ hr2 with ⟨b, hb⟩
    simp at hb
  · intro ev hev
    rw [hmain] at hev
    exact hevA ev hev

/-- Witness for the amended C7 at the concrete unparsable reference. -/
theorem ociParse_amended_witness :
    pullOCIChart envC7 hrOCI
      = ((none, some "could not parse reference"),
          [.secretRead true "regcred" "nsB"]) := by
  have h := (ociParse_amended envC7 hrOCI
    ⟨none, some ⟨":::badref", "regcred"⟩⟩ ⟨":::badref", "regcred"⟩
    "could not parse reference" rfl rfl rfl (by decide) rfl).1
  rw [h]
  decide

/-- C8 counterexample: an HTTP-source resolution finds the archive
already present at its expected path and removes it — a resolution call
destroys a cached archive file. -/
theorem cachedArchive_counterexample :
    envA.fileExists "/tmp/helm-charts/req8-app-2.0.tgz" = true ∧
    Event.fileRemove "/tmp/helm-charts/req8-app-2.0.tgz"
      ∈ (downloadChartFromHTTP envA ⟨"req8", "nsC",
          some ⟨some ⟨"http://files.example.com/pkg/app-2.0.tgz", ""⟩, none⟩⟩).2 := by
  decide

/-- C8 amended: repository-path resolution never removes any file and
writes only to a destination it first found absent — an existing archive
is accepted as valid; the HTTP-source path, by contrast, removes exactly
the files that already exist at its destination path before
re-downloading. -/
theorem cachedArchive_amended :
    (∀ (env : Env) (ns name version p : String),
        Event.fileRemove p ∉ (downloadChart env ns name version).2)
  ∧ (∀ (env : Env) (ns name version p : String),
        Event.fileWrite p ∈ (downloadChart env ns name version).2 →
        env.fileExists p = false)
  ∧ (∀ (env : Env) (hr : HelmRequest) (p : String),
        Event.fileRemove p ∈ (downloadChartFromHTTP env hr).2 →
        env.fileExists p = true) := by
  refine ⟨?_, ?_, ?_⟩
  · intro env ns name version p hmem
    rcases downloadChart_trace env ns name version _ hmem with
      ⟨a, b, h⟩ | ⟨a, b, c, h⟩ | ⟨u, h⟩ | ⟨q, h, hq⟩ <;> simp at h
  · intro env ns name version p hmem
    rcases downloadChart_trace env ns name version _ hmem with
      ⟨a, b, h⟩ | ⟨a, b, c, h⟩ | ⟨u, h⟩ | ⟨q, h, hq⟩
    · cases h
    · cases h
    · cases h
    · cases h
      exact hq
  · intro env hr p hmem
    rcases downloadChartFromHTTP_trace env hr _ hmem with
      ⟨q, h, hq⟩ | ⟨b, a, b2, h⟩ | ⟨u, h⟩ | ⟨q, h⟩
    · cases h
      exact hq
    · cases h
    · cases h
    · cases h

/-- Witness for the amended C8: a removal observed on the HTTP path
implies the file existed. -/
theorem cachedArchive_amended_witness :
    envA.fileExists "/tmp/helm-charts/req8b-app-3.0.tgz" = true :=
  cachedArchive_amended.2.2 envA ⟨"req8b", "nsC",
      some ⟨some ⟨"http://files.example.com/pkg/app-3.0.tgz", ""⟩, none⟩⟩
    "/tmp/helm-charts/req8b-app-3.0.tgz" (by decide)
